import Mathlib

/-
Verification development for the social-monitoring mention pipeline.

The SQLAlchemy models under src/backend/app/models define the data model:
column lists, check constraints, defaults and unique constraints.  The
pipeline operations themselves (deduplication, monitor matching, alert rule
evaluation, notification dispatch) are described in spec.md and are modelled
here from the spec, operating over the code's data model.
-/

namespace SocialMonitoring

/- Columns contributed by BaseModel (UUIDMixin + TimestampMixin) in
src/backend/app/models/base.py. -/
def baseModelColumns : List String := ["id", "created_at", "updated_at"]

/- Columns of the mentions table, src/backend/app/models/mention.py
(class Mention).  BaseModel supplies id/created_at/updated_at; the hash
columns content_hash and similarity_hash are declared on Mention itself. -/
def mentionColumns : List String :=
  baseModelColumns ++
  ["platform_id", "social_user_id", "platform_post_id", "content_text",
   "content_html", "normalized_content", "language", "post_type",
   "parent_post_id", "media_urls", "external_links", "hashtags",
   "mentioned_users", "published_at", "collected_at", "likes_count",
   "shares_count", "comments_count", "views_count", "sentiment_score",
   "sentiment_label", "toxicity_score", "spam_probability", "category",
   "priority_score", "processing_status", "content_hash", "similarity_hash"]

/- Columns of the mention_fingerprints table, mention.py
(class MentionFingerprint): it overrides id = None and updated_at = None,
leaving only the mention_id primary key and created_at.  It declares no hash
columns. -/
def mentionFingerprintColumns : List String := ["mention_id", "created_at"]

/- Columns of the monitors table, src/backend/app/models/monitor.py
(class Monitor).  There is no languages column. -/
def monitorColumns : List String :=
  baseModelColumns ++
  ["workspace_id", "name", "description", "keywords", "negative_keywords",
   "platforms", "status", "real_time", "include_retweets", "min_followers",
   "created_by", "last_mention_at"]

/- Columns of the alert_rules table, src/backend/app/models/alert.py
(class AlertRule).  A single rule-level last_triggered_at timestamp; no
per-clause trigger tracking exists anywhere in the schema. -/
def alertRuleColumns : List String :=
  baseModelColumns ++
  ["monitor_id", "name", "description", "conditions", "frequency",
   "channels", "recipients", "status", "created_by", "last_triggered_at"]

/- Columns of the alert_deliveries table, alert.py (class AlertDelivery):
id, alert_id, channel, recipient, status, attempts, error_message, sent_at,
created_at, plus updated_at inherited from BaseModel.  There is no
max_attempts and no scheduled_for column. -/
def alertDeliveryColumns : List String :=
  baseModelColumns ++
  ["alert_id", "channel", "recipient", "status", "attempts",
   "error_message", "sent_at"]

/- Columns of the notification_queue table,
src/backend/app/models/notification.py (class NotificationQueue). -/
def notificationQueueColumns : List String :=
  baseModelColumns ++
  ["workspace_id", "recipient_id", "channel", "recipient_address",
   "subject", "body", "priority", "status", "scheduled_for", "attempts",
   "max_attempts", "last_attempt_at", "sent_at", "error_message",
   "notification_metadata", "external_id"]

/- Check constraint alert_deliveries_status_check, alert.py line 278:
status IN ('pending', 'sent', 'failed', 'bounced'). -/
def alertDeliveryStatuses : List String :=
  ["pending", "sent", "failed", "bounced"]

/- Server default of AlertDelivery.status, alert.py lines 243-247. -/
def alertDeliveryDefaultStatus : String := "pending"

/- Check constraint check_queue_status, notification.py lines 195-198:
status IN ('pending', 'processing', 'sent', 'failed', 'cancelled'). -/
def notificationQueueStatuses : List String :=
  ["pending", "processing", "sent", "failed", "cancelled"]

/- Check constraint alert_rules_frequency_check, alert.py line 111. -/
def alertRuleFrequencies : List String :=
  ["immediate", "hourly", "daily", "weekly"]

/- Check constraint monitors_status_check, monitor.py line 117. -/
def monitorStatuses : List String := ["active", "paused", "archived"]

/-
Text normalization and fingerprint hashing.

Modelled from the spec: the Fingerprint Deduplicator of spec.md section 4.1
("normalize text (lowercase, strip URLs/whitespace/punctuation variance);
compute content_hash = cryptographic digest of normalized text; compute
similarity_hash = locality-sensitive hash") has no implementation under
src/; only the columns it fills exist (mention.py).  Text is modelled as a
list of Unicode code points.
-/

def lowerCode (c : Nat) : Nat :=
  if 65 ≤ c ∧ c ≤ 90 then c + 32 else c

def isKeptCode (c : Nat) : Bool :=
  (48 ≤ c && c ≤ 57) || (97 ≤ c && c ≤ 122) || c == 32

def normalizeFn (xs : List Nat) : List Nat :=
  (xs.map lowerCode).filter isKeptCode

/- Modelled from the spec: a 256-bit digest of the normalized text
(abstracted to a rolling hash reduced mod 2^256). -/
def contentHashFn (xs : List Nat) : Nat :=
  xs.foldl (fun h c => (h * 131 + c + 1) % 2 ^ 256) 7

/- Modelled from the spec: a 64-bit locality-sensitive digest (abstracted
to a rolling hash reduced mod 2^64). -/
def simHashFn (xs : List Nat) : Nat :=
  xs.foldl (fun h c => (h * 31 + c + 1) % 2 ^ 64) 3

def popCountAux : Nat → Nat → Nat
  | 0, _ => 0
  | f + 1, n => n % 2 + popCountAux f (n / 2)

/- Hamming distance between two 64-bit similarity hashes. -/
def hammingDistance (a b : Nat) : Nat :=
  popCountAux 64 (a ^^^ b)

/- Code points of a string literal, for stating concrete examples. -/
def strCodes (s : String) : List Nat :=
  s.toList.map Char.toNat

/-
Keyword matching.

Modelled from the spec: section 4.2 Monitor Matcher ("mention matches if
normalized content contains at least one of the monitor's keywords
(case-insensitive substring or token match) AND none of the
negative_keywords"); only the monitors table columns exist under src/.
-/

def isPrefixB : List Nat → List Nat → Bool
  | [], _ => true
  | _ :: _, [] => false
  | a :: as, b :: bs => a == b && isPrefixB as bs

def isInfixB (p : List Nat) : List Nat → Bool
  | [] => isPrefixB p []
  | c :: cs => isPrefixB p (c :: cs) || isInfixB p cs

def keywordTest (kws negs : List (List Nat)) (content : List Nat) : Bool :=
  let norm := normalizeFn content
  kws.any (fun k => isInfixB (normalizeFn k) norm) &&
    negs.all (fun k => !isInfixB (normalizeFn k) norm)

/-
Ingestion / Fingerprint Deduplicator.

Modelled from the spec: the submit_mention ingestion contract (spec.md
sections 4.1 and 6) has no implementation under src/; the mentions table
(mention.py) supplies the stored shape, its unique constraint on
(platform_id, platform_post_id), and the non-nullable content_hash and
similarity_hash columns.  UUIDs are modelled as Nat keys.
-/

inductive SubmitResult where
  | admitted
  | duplicate
  | nearDuplicate
  | rejected
deriving DecidableEq, Repr

structure MentionIn where
  platformId : Nat
  platformPostId : String
  contentText : List Nat
deriving DecidableEq, Repr

structure MentionRow where
  platformId : Nat
  platformPostId : String
  contentText : List Nat
  normalizedContent : List Nat
  contentHash : Nat
  similarityHash : Nat
  category : Option String
  processingStatus : String
deriving DecidableEq, Repr

def mkRow (m : MentionIn) (norm : List Nat) (ch sh : Nat)
    (cat : Option String) : MentionRow :=
  { platformId := m.platformId
    platformPostId := m.platformPostId
    contentText := m.contentText
    normalizedContent := norm
    contentHash := ch
    similarityHash := sh
    category := cat
    processingStatus := "pending" }

def samePair (r : MentionRow) (pid : Nat) (ppid : String) : Bool :=
  r.platformId == pid && r.platformPostId == ppid

/- Modelled from the spec: the decision policy of section 4.1 — reject
malformed (empty) content; reject an already-stored
(platform_id, platform_post_id) pair as a platform-level duplicate; reject
an identical content_hash as an exact duplicate; admit a similarity_hash
within Hamming distance T flagged category="duplicate"; otherwise admit,
persisting the row together with both hashes. -/
def submitMention (T : Nat) (s : List MentionRow) (m : MentionIn) :
    SubmitResult × List MentionRow :=
  if m.contentText = [] then (.rejected, s)
  else if s.any (fun r => samePair r m.platformId m.platformPostId) then
    (.duplicate, s)
  else
    let norm := normalizeFn m.contentText
    let ch := contentHashFn norm
    let sh := simHashFn norm
    if s.any (fun r => r.contentHash == ch) then (.duplicate, s)
    else if s.any
        (fun r => decide (hammingDistance r.similarityHash sh ≤ T)) then
      (.nearDuplicate, s ++ [mkRow m norm ch sh (some "duplicate")])
    else (.admitted, s ++ [mkRow m norm ch sh none])

def countPair (s : List MentionRow) (pid : Nat) (ppid : String) : Nat :=
  (s.filter (fun r => samePair r pid ppid)).length

def runSubmissions (T : Nat) (ms : List MentionIn) : List MentionRow :=
  ms.foldl (fun s m => (submitMention T s m).2) []

/-
Monitor Matcher.

Modelled from the spec: section 4.2 has no implementation under src/; the
monitors table (monitor.py) supplies the monitor fields the matcher reads —
keywords, negative_keywords, platforms, status, include_retweets,
min_followers.  The Monitor model has no languages column.
-/

structure MonitorRec where
  monitorId : Nat
  keywords : List (List Nat)
  negativeKeywords : List (List Nat)
  platforms : List String
  status : String
  includeRetweets : Bool
  minFollowers : Nat
deriving DecidableEq, Repr

structure MatcherMention where
  mentionId : Nat
  platform : String
  language : Option String
  content : List Nat
  authorFollowers : Nat
  isRepost : Bool
deriving DecidableEq, Repr

/- Monitor pre-filter over the fields the code's Monitor model has: active
status and platform membership. -/
def monitorEligible (mon : MonitorRec) (men : MatcherMention) : Bool :=
  mon.status == "active" && mon.platforms.contains men.platform

/- Modelled from the spec: keyword test plus the follower and repost gates
of section 4.2. -/
def monitorAccepts (mon : MonitorRec) (men : MatcherMention) : Bool :=
  keywordTest mon.keywords mon.negativeKeywords men.content &&
    decide (mon.minFollowers ≤ men.authorFollowers) &&
    (!men.isRepost || mon.includeRetweets)

def matchedKeywordsOf (kws : List (List Nat)) (content : List Nat) :
    List (List Nat) :=
  kws.filter (fun k => isInfixB (normalizeFn k) (normalizeFn content))

def eligibleMonitors (mons : List MonitorRec) (men : MatcherMention) :
    List MonitorRec :=
  mons.filter (fun mon => monitorEligible mon men)

/- One evaluation of a mention against all monitors: the monitors that
match, each with its matched keyword list. -/
def processMention (mons : List MonitorRec) (men : MatcherMention) :
    List (MonitorRec × List (List Nat)) :=
  (eligibleMonitors mons men).filterMap fun mon =>
    if monitorAccepts mon men then
      some (mon, matchedKeywordsOf mon.keywords men.content)
    else none

/-
MonitorMention store.

The monitor_mentions table (mention.py, class MonitorMention) carries the
unique constraint on (monitor_id, mention_id); the write path is modelled
from the spec ("write one MonitorMention row per (monitor, mention) pair —
never duplicate"): insert-if-absent.
-/

structure MonitorMentionRow where
  monitorId : Nat
  mentionId : Nat
  matchedKeywords : List (List Nat)
  matchScore : Nat
  detectedAt : Nat
deriving DecidableEq, Repr

def pairPresent (rows : List MonitorMentionRow) (mon men : Nat) : Bool :=
  rows.any (fun r => r.monitorId == mon && r.mentionId == men)

def recordMatch (rows : List MonitorMentionRow) (row : MonitorMentionRow) :
    List MonitorMentionRow :=
  if pairPresent rows row.monitorId row.mentionId then rows
  else rows ++ [row]

def matchFold (rows : List MonitorMentionRow)
    (evs : List MonitorMentionRow) : List MonitorMentionRow :=
  evs.foldl recordMatch rows

def PairUnique (rows : List MonitorMentionRow) : Prop :=
  List.Pairwise
    (fun a b => ¬(a.monitorId = b.monitorId ∧ a.mentionId = b.mentionId))
    rows

/-
Alert Rule Evaluator throttling.

Modelled from the spec: section 4.3 has no implementation under src/; the
alert_rules table (alert.py) supplies the state it can keep — the frequency
column and the single rule-level last_triggered_at timestamp.  Time is
modelled in seconds as Nat.
-/

structure RuleState where
  frequency : String
  lastTriggeredAt : Option Nat
  pendingMentionIds : List Nat
deriving DecidableEq, Repr

structure AlertEvent where
  mentionIds : List Nat
  triggeredAt : Nat
deriving DecidableEq, Repr

def windowSeconds (f : String) : Nat :=
  if f == "hourly" then 3600
  else if f == "daily" then 86400
  else if f == "weekly" then 604800
  else 0

def ruleThrottled (s : RuleState) (t : Nat) : Bool :=
  match s.lastTriggeredAt with
  | none => false
  | some lt => decide (t < lt + windowSeconds s.frequency)

/- One triggering event for a rule: clause names which of the five
condition clauses fired; the rule's stored throttle state (the single
last_triggered_at column) cannot depend on it.  A throttled event
accumulates the mention id; an unthrottled firing event emits an alert
carrying the accumulated ids and resets the accumulator. -/
def evalEvent (s : RuleState) (t : Nat) (mid : Nat) (clause : String)
    (fires : Bool) : RuleState × Option AlertEvent :=
  let _ := clause
  if fires then
    if ruleThrottled s t then
      ({ s with pendingMentionIds := s.pendingMentionIds ++ [mid] }, none)
    else
      ({ s with lastTriggeredAt := some t, pendingMentionIds := [] },
       some { mentionIds := s.pendingMentionIds ++ [mid], triggeredAt := t })
  else (s, none)

/-
Notification Dispatcher.

The notification_queue table (notification.py) supplies the defaults —
status "pending", attempts 0, max_attempts 3 — and the status check
constraint; the delivery loop is modelled from the spec (section 4.4).
-/

structure QueueJob where
  status : String
  attempts : Nat
  maxAttempts : Nat
  errorMessage : Option String
deriving DecidableEq, Repr

/- Enqueued job with the column defaults of NotificationQueue
(notification.py lines 133-156). -/
def enqueueJob : QueueJob :=
  { status := "pending", attempts := 0, maxAttempts := 3,
    errorMessage := none }

/- Modelled from the spec: dequeue an eligible pending job and transition
it to processing. -/
def startJob (j : QueueJob) : QueueJob :=
  { j with status := "processing" }

/- Modelled from the spec: on failure increment attempts and record the
error; re-enqueue as pending while attempts < max_attempts, else the job
becomes failed (terminal). -/
def failAttempt (j : QueueJob) (msg : String) : QueueJob :=
  let a := j.attempts + 1
  if a < j.maxAttempts then
    { j with status := "pending", attempts := a, errorMessage := some msg }
  else
    { j with status := "failed", attempts := a, errorMessage := some msg }

/- Trace of a job every one of whose delivery attempts fails: each pending
job is started (processing) and the attempt fails; fuel bounds the
recursion. -/
def alwaysFailRun : Nat → QueueJob → List QueueJob
  | 0, j => [j]
  | fuel + 1, j =>
    if j.status == "pending" then
      let p := startJob j
      j :: p :: alwaysFailRun fuel (failAttempt p "delivery failed")
    else [j]

/- Modelled from the spec: the AlertDelivery transition relation of
section 4.4, restricted to the statuses the alert_deliveries check
constraint admits (there is no processing and no cancelled status): a
pending delivery is sent, retried (pending again), failed, or bounced
externally; sent, failed and bounced are terminal. -/
def deliveryNext (s t : String) : Bool :=
  s == "pending" &&
    (t == "sent" || t == "pending" || t == "failed" || t == "bounced")

/-
BaseModel.from_dict, src/backend/app/models/base.py lines 93-100: keep
only the keys that are column names, then construct from the filtered
dictionary.  Dictionaries are modelled as association lists; the Python
constructor cls(**kwargs), which raises on an unexpected keyword, is
modelled as an Option-returning constructor that succeeds exactly when
every key is a column.
-/

def fromDict (cols : List String) (data : List (String × Nat)) :
    List (String × Nat) :=
  data.filter (fun kv => cols.contains kv.1)

def modelConstruct (cols : List String) (kvs : List (String × Nat)) :
    Option (List (String × Nat)) :=
  if kvs.all (fun kv => cols.contains kv.1) then some kvs else none

/-
AlertDelivery records and the Dispatcher's operations on them.

Modelled from the spec: section 4.4 has no implementation under src/; the
alert_deliveries table (alert.py, class AlertDelivery) supplies the record
shape — alert_id, channel, recipient, status, attempts, error_message,
sent_at.  The Dispatcher fans an alert out to one record per
(channel, recipient) pair, and its two delivery outcomes (success,
failure) are the only operations of the pipeline model that mutate a
delivery record; bounced is external-driven and terminal.
-/

structure DeliveryRec where
  alertId : Nat
  channel : String
  recipient : String
  status : String
  attempts : Nat
  errorMessage : Option String
  sentAt : Option Nat
deriving DecidableEq, Repr

/- A freshly enqueued delivery record, with the AlertDelivery column
defaults (status pending, attempts 0). -/
def mkDelivery (aid : Nat) (ch rc : String) : DeliveryRec :=
  { alertId := aid, channel := ch, recipient := rc, status := "pending",
    attempts := 0, errorMessage := none, sentAt := none }

/- Modelled from the spec: the Dispatcher enqueues one delivery record per
(channel, recipient) pair of the alert's rule. -/
def enqueueDeliveries (aid : Nat) :
    List String → List String → List DeliveryRec
  | [], _ => []
  | ch :: rest, recipients =>
    (recipients.map fun rc => mkDelivery aid ch rc) ++
      enqueueDeliveries aid rest recipients

def keyMatch (d : DeliveryRec) (aid : Nat) (ch rc : String) : Bool :=
  d.alertId == aid && d.channel == ch && d.recipient == rc

/- Modelled from the spec: successful delivery — the Dispatcher marks the
record sent and stamps sent_at. -/
def deliverSuccess (d : DeliveryRec) (t : Nat) : DeliveryRec :=
  { d with status := "sent", sentAt := some t }

/- Modelled from the spec: failed delivery — the Dispatcher increments
attempts and records the error; the record is re-enqueued as pending while
attempts < max_attempts (a dispatcher parameter, since alert_deliveries has
no max_attempts column), else becomes failed. -/
def deliverFailure (maxAttempts : Nat) (d : DeliveryRec) (msg : String) :
    DeliveryRec :=
  let a := d.attempts + 1
  if a < maxAttempts then
    { d with status := "pending", attempts := a, errorMessage := some msg }
  else
    { d with status := "failed", attempts := a, errorMessage := some msg }

/- The Dispatcher's operations: in the pipeline model these are the only
mutators of a delivery record. -/
inductive DispatchOp where
  | succeed (t : Nat)
  | failure (maxAttempts : Nat) (msg : String)
deriving DecidableEq, Repr

def applyOp (d : DeliveryRec) : DispatchOp → DeliveryRec
  | .succeed t => deliverSuccess d t
  | .failure maxA msg => deliverFailure maxA d msg

def applyOps (d : DeliveryRec) (ops : List DispatchOp) : DeliveryRec :=
  ops.foldl applyOp d

/- A stored mention row whose persisted hash columns agree with the
normalization and digests of its text. -/
def RowHashOK (r : MentionRow) : Prop :=
  r.normalizedContent = normalizeFn r.contentText ∧
  r.contentHash = contentHashFn r.normalizedContent ∧
  r.similarityHash = simHashFn r.normalizedContent

/-- Claim C9: a monitor with keywords=["launch"] and
negative_keywords=["delay"] matches the content "Product launch today"
(a keyword is contained, no negative keyword is) and does not match
"Launch delayed again" (the negative keyword "delay" occurs,
case-insensitively, inside "delayed"). -/
theorem c9_keyword_examples :
    keywordTest [strCodes "launch"] [strCodes "delay"]
      (strCodes "Product launch today") = true ∧
    keywordTest [strCodes "launch"] [strCodes "delay"]
      (strCodes "Launch delayed again") = false :=
  ⟨by decide, by decide⟩

/-- Claim C8 (counterexample): the alert_deliveries table has no
max_attempts column and no scheduled_for column, so an AlertDelivery record
does not carry those fields as the claim states. -/
theorem c8_counterexample :
    "max_attempts" ∉ alertDeliveryColumns ∧
    "scheduled_for" ∉ alertDeliveryColumns := by
  decide

theorem keyMatch_mkDelivery (aid : Nat) (c r ch rc : String) :
    keyMatch (mkDelivery aid c r) aid ch rc = (c == ch && r == rc) := by
  simp [keyMatch, mkDelivery]

theorem inner_len_eq (aid : Nat) (ch rc : String)
    (recipients : List String) :
    ((recipients.map (fun r => mkDelivery aid ch r)).filter
      (fun d => keyMatch d aid ch rc)).length =
      (recipients.filter (fun r => r == rc)).length := by
  induction recipients with
  | nil => rfl
  | cons r rs ih =>
    by_cases hr : (r == rc) = true <;>
      simp [List.filter_cons, keyMatch_mkDelivery, hr, ih]

theorem inner_len_zero (aid : Nat) (c ch rc : String)
    (recipients : List String) (hc : (c == ch) = false) :
    ((recipients.map (fun r => mkDelivery aid c r)).filter
      (fun d => keyMatch d aid ch rc)).length = 0 := by
  induction recipients with
  | nil => rfl
  | cons r rs ih => simp [List.filter_cons, keyMatch_mkDelivery, hc, ih]

theorem filter_beq_len_one (rc : String) (l : List String) (hN : l.Nodup)
    (hm : rc ∈ l) : (l.filter (fun r => r == rc)).length = 1 := by
  induction l with
  | nil => cases hm
  | cons a as ih =>
    rw [List.nodup_cons] at hN
    rcases List.mem_cons.mp hm with heq | hm'
    · subst heq
      rw [List.filter_cons]
      have hz : (as.filter (fun r => r == rc)).length = 0 := by
        rw [List.length_eq_zero, List.filter_eq_nil_iff]
        intro x hx hbeq
        exact hN.1 (by rwa [eq_of_beq hbeq] at hx)
      simp [hz]
    · have hne : (a == rc) = false := by
        cases hac : (a == rc) with
        | false => rfl
        | true => exact absurd (by rw [eq_of_beq hac]; exact hm') hN.1
      rw [List.filter_cons]
      simp [hne, ih hN.2 hm']

theorem enqueue_len_zero (aid : Nat) (ch rc : String)
    (recipients : List String) (cs : List String) (hch : ch ∉ cs) :
    ((enqueueDeliveries aid cs recipients).filter
      (fun d => keyMatch d aid ch rc)).length = 0 := by
  induction cs with
  | nil => rfl
  | cons c cs ih =>
    rw [enqueueDeliveries, List.filter_append, List.length_append]
    have hcne : (c == ch) = false := by
      cases hcc : (c == ch) with
      | false => rfl
      | true =>
        exact absurd
          (by rw [← eq_of_beq hcc]; exact List.mem_cons_self c cs) hch
    rw [inner_len_zero aid c ch rc recipients hcne,
      ih (fun hmem => hch (List.mem_cons_of_mem c hmem))]

theorem enqueue_len_one (aid : Nat) (ch rc : String)
    (channels recipients : List String) (hchN : channels.Nodup)
    (hrcN : recipients.Nodup) (hc : ch ∈ channels)
    (hr : rc ∈ recipients) :
    ((enqueueDeliveries aid channels recipients).filter
      (fun d => keyMatch d aid ch rc)).length = 1 := by
  induction channels with
  | nil => cases hc
  | cons c cs ih =>
    rw [List.nodup_cons] at hchN
    rw [enqueueDeliveries, List.filter_append, List.length_append]
    rcases List.mem_cons.mp hc with heq | hc'
    · subst heq
      rw [inner_len_eq aid ch rc recipients,
        filter_beq_len_one rc recipients hrcN hr,
        enqueue_len_zero aid ch rc recipients cs hchN.1]
    · have hcne : (c == ch) = false := by
        cases hcc : (c == ch) with
        | false => rfl
        | true => exact absurd (by rw [eq_of_beq hcc]; exact hc') hchN.1
      rw [inner_len_zero aid c ch rc recipients hcne, ih hchN.2 hc']

theorem applyOp_key (d : DeliveryRec) (op : DispatchOp) :
    (applyOp d op).alertId = d.alertId ∧
    (applyOp d op).channel = d.channel ∧
    (applyOp d op).recipient = d.recipient := by
  cases op with
  | succeed t => exact ⟨rfl, rfl, rfl⟩
  | failure maxA msg =>
    show (deliverFailure maxA d msg).alertId = d.alertId ∧
      (deliverFailure maxA d msg).channel = d.channel ∧
      (deliverFailure maxA d msg).recipient = d.recipient
    rw [deliverFailure]
    split <;> exact ⟨rfl, rfl, rfl⟩

theorem applyOps_key (d : DeliveryRec) (ops : List DispatchOp) :
    (applyOps d ops).alertId = d.alertId ∧
    (applyOps d ops).channel = d.channel ∧
    (applyOps d ops).recipient = d.recipient := by
  induction ops generalizing d with
  | nil => exact ⟨rfl, rfl, rfl⟩
  | cons op ops ih =>
    have h1 := applyOp_key d op
    have h2 := ih (applyOp d op)
    exact ⟨h2.1.trans h1.1, h2.2.1.trans h1.2.1, h2.2.2.trans h1.2.2⟩

theorem deliverFailure_effect (maxA : Nat) (d : DeliveryRec)
    (msg : String) :
    (deliverFailure maxA d msg).attempts = d.attempts + 1 ∧
    (deliverFailure maxA d msg).errorMessage = some msg ∧
    (deliverFailure maxA d msg).sentAt = d.sentAt := by
  rw [deliverFailure]
  split <;> exact ⟨rfl, rfl, rfl⟩

/-- Claim C8 (amended): an AlertDelivery record carries attempts and
error_message but not max_attempts or scheduled_for (those live on
NotificationQueue); the Dispatcher fan-out enqueues exactly one delivery
record per (alert, channel, recipient) triple; and the Dispatcher's
operations — the only mutators of delivery records in the pipeline model —
never change the identifying (alert_id, channel, recipient) key across any
operation sequence, with attempts and error_message mutated exactly by the
failure path and left unchanged by the success path. -/
theorem c8_delivery_fields (aid : Nat) (channels recipients : List String)
    (ch rc : String) (hchN : channels.Nodup) (hrcN : recipients.Nodup)
    (hc : ch ∈ channels) (hr : rc ∈ recipients) :
    ("attempts" ∈ alertDeliveryColumns ∧
     "error_message" ∈ alertDeliveryColumns ∧
     "max_attempts" ∉ alertDeliveryColumns ∧
     "scheduled_for" ∉ alertDeliveryColumns ∧
     "max_attempts" ∈ notificationQueueColumns ∧
     "scheduled_for" ∈ notificationQueueColumns) ∧
    ((enqueueDeliveries aid channels recipients).filter
      (fun d => keyMatch d aid ch rc)).length = 1 ∧
    (∀ d ops, (applyOps d ops).alertId = d.alertId ∧
      (applyOps d ops).channel = d.channel ∧
      (applyOps d ops).recipient = d.recipient) ∧
    (∀ maxA d msg,
      (deliverFailure maxA d msg).attempts = d.attempts + 1 ∧
      (deliverFailure maxA d msg).errorMessage = some msg) ∧
    (∀ d t, (deliverSuccess d t).attempts = d.attempts ∧
      (deliverSuccess d t).errorMessage = d.errorMessage) :=
  ⟨by decide,
   enqueue_len_one aid ch rc channels recipients hchN hrcN hc hr,
   fun d ops => applyOps_key d ops,
   fun maxA d msg => ⟨(deliverFailure_effect maxA d msg).1,
     (deliverFailure_effect maxA d msg).2.1⟩,
   fun d t => ⟨rfl, rfl⟩⟩

/-- Claim C8 (witness): fan-out of alert 7 to two channels and two
recipients holds exactly one record for (7, email, first recipient). -/
theorem c8_delivery_fields_witness :
    ("attempts" ∈ alertDeliveryColumns ∧
     "error_message" ∈ alertDeliveryColumns ∧
     "max_attempts" ∉ alertDeliveryColumns ∧
     "scheduled_for" ∉ alertDeliveryColumns ∧
     "max_attempts" ∈ notificationQueueColumns ∧
     "scheduled_for" ∈ notificationQueueColumns) ∧
    ((enqueueDeliveries 7 ["email", "slack"] ["ra", "rb"]).filter
      (fun d => keyMatch d 7 "email" "ra")).length = 1 ∧
    (∀ d ops, (applyOps d ops).alertId = d.alertId ∧
      (applyOps d ops).channel = d.channel ∧
      (applyOps d ops).recipient = d.recipient) ∧
    (∀ maxA d msg,
      (deliverFailure maxA d msg).attempts = d.attempts + 1 ∧
      (deliverFailure maxA d msg).errorMessage = some msg) ∧
    (∀ d t, (deliverSuccess d t).attempts = d.attempts ∧
      (deliverSuccess d t).errorMessage = d.errorMessage) :=
  c8_delivery_fields 7 ["email", "slack"] ["ra", "rb"] "email" "ra"
    (by decide) (by decide) (by decide) (by decide)

/-- Claim C3 (counterexample): the check constraint on alert_deliveries
admits only pending, sent, failed and bounced — neither processing nor
cancelled is an allowed AlertDelivery status, contrary to the claim's
six-value status set and its pending→processing transition. -/
theorem c3_counterexample :
    "processing" ∉ alertDeliveryStatuses ∧
    "cancelled" ∉ alertDeliveryStatuses := by
  decide

/-- Claim C5 (counterexample): the mention_fingerprints table carries
neither a content_hash nor a similarity_hash column, so the claim's
description of MentionFingerprint as holding both hashes fails on the
code; both hash columns are declared on the mentions table itself. -/
theorem c5_counterexample :
    "content_hash" ∉ mentionFingerprintColumns ∧
    "similarity_hash" ∉ mentionFingerprintColumns ∧
    "content_hash" ∈ mentionColumns ∧
    "similarity_hash" ∈ mentionColumns := by
  decide

/-- Claim C7 (counterexample): the monitors table has no languages column,
so monitor matching cannot filter on a monitor's languages set as the
claim states. -/
theorem c7_counterexample : "languages" ∉ monitorColumns := by
  decide

/-- Claim C4 (counterexample): with the single rule-level last_triggered_at
the schema provides, a firing of the sentiment clause at time 0 throttles a
firing of the distinct influencer clause at time 10 — so throttling is
tracked per rule, not per clause as the claim states. -/
theorem c4_counterexample :
    ((evalEvent
        { frequency := "hourly", lastTriggeredAt := none,
          pendingMentionIds := [] } 0 1 "sentiment" true).2).isSome = true ∧
    (evalEvent
        (evalEvent
          { frequency := "hourly", lastTriggeredAt := none,
            pendingMentionIds := [] } 0 1 "sentiment" true).1
        10 2 "influencer" true).2 = none := by
  exact ⟨rfl, rfl⟩

/-- Claim C3 (amended): every AlertDelivery status is one of pending, sent,
failed, bounced (the set the check constraint admits); transitions follow
pending → {sent | retry→pending | failed}, with pending → bounced driven
externally; sent, failed and bounced are terminal; and the column default
status pending is among the allowed statuses. -/
theorem c3_delivery_state_machine :
    (∀ t, deliveryNext "sent" t = false) ∧
    (∀ t, deliveryNext "failed" t = false) ∧
    (∀ t, deliveryNext "bounced" t = false) ∧
    (∀ s t, deliveryNext s t = true →
      s ∈ alertDeliveryStatuses ∧ t ∈ alertDeliveryStatuses) ∧
    alertDeliveryDefaultStatus ∈ alertDeliveryStatuses := by
  refine ⟨fun t => rfl, fun t => rfl, fun t => rfl, ?_, by decide⟩
  intro s t h
  simp only [deliveryNext, Bool.and_eq_true, Bool.or_eq_true,
    beq_iff_eq] at h
  obtain ⟨rfl, ht⟩ := h
  refine ⟨by decide, ?_⟩
  rcases ht with ((rfl | rfl) | rfl) | rfl <;> decide

/-- Claim C3 (witness): the pending → sent transition is allowed and both
endpoint statuses satisfy the check constraint. -/
theorem c3_delivery_state_machine_witness :
    "pending" ∈ alertDeliveryStatuses ∧ "sent" ∈ alertDeliveryStatuses :=
  c3_delivery_state_machine.2.2.2.1 "pending" "sent" (by decide)

/-- Claim C2: a delivery job that starts from the NotificationQueue column
defaults (status pending, attempts 0, max_attempts 3) and whose every
delivery attempt fails traces
pending→processing→pending→processing→pending→processing→failed, its
attempts counter runs 0,0,1,1,2,2,3 and never exceeds 3, and every status
in the trace satisfies the notification_queue status check constraint. -/
theorem c2_retry_cap (j : QueueJob) (h1 : j.status = "pending")
    (h2 : j.attempts = 0) (h3 : j.maxAttempts = 3) :
    (alwaysFailRun 10 j).map QueueJob.status =
      ["pending", "processing", "pending", "processing", "pending",
       "processing", "failed"] ∧
    (alwaysFailRun 10 j).map QueueJob.attempts = [0, 0, 1, 1, 2, 2, 3] ∧
    (∀ k ∈ alwaysFailRun 10 j, k.attempts ≤ 3) ∧
    (∀ k ∈ alwaysFailRun 10 j, k.status ∈ notificationQueueStatuses) ∧
    enqueueJob.status = "pending" ∧ enqueueJob.attempts = 0 ∧
    enqueueJob.maxAttempts = 3 := by
  obtain ⟨st, a, ma, em⟩ := j
  simp only at h1 h2 h3
  subst h1; subst h2; subst h3
  have hstat : (alwaysFailRun 10 (QueueJob.mk "pending" 0 3 em)).map
      QueueJob.status =
      ["pending", "processing", "pending", "processing", "pending",
       "processing", "failed"] := rfl
  have hatt : (alwaysFailRun 10 (QueueJob.mk "pending" 0 3 em)).map
      QueueJob.attempts = [0, 0, 1, 1, 2, 2, 3] := rfl
  refine ⟨hstat, hatt, ?_, ?_, rfl, rfl, rfl⟩
  · intro k hk
    have hm : k.attempts ∈ (alwaysFailRun 10
        (QueueJob.mk "pending" 0 3 em)).map QueueJob.attempts :=
      List.mem_map_of_mem _ hk
    rw [hatt] at hm
    simp only [List.mem_cons, List.not_mem_nil, or_false] at hm
    rcases hm with h | h | h | h | h | h | h <;> omega
  · intro k hk
    have hm : k.status ∈ (alwaysFailRun 10
        (QueueJob.mk "pending" 0 3 em)).map QueueJob.status :=
      List.mem_map_of_mem _ hk
    rw [hstat] at hm
    simp only [List.mem_cons, List.not_mem_nil, or_false] at hm
    rcases hm with h | h | h | h | h | h | h <;> rw [h] <;> decide

/-- Claim C2 (witness): the trace of the default enqueued job. -/
theorem c2_retry_cap_witness :
    (alwaysFailRun 10 enqueueJob).map QueueJob.status =
      ["pending", "processing", "pending", "processing", "pending",
       "processing", "failed"] ∧
    (alwaysFailRun 10 enqueueJob).map QueueJob.attempts =
      [0, 0, 1, 1, 2, 2, 3] ∧
    (∀ k ∈ alwaysFailRun 10 enqueueJob, k.attempts ≤ 3) ∧
    (∀ k ∈ alwaysFailRun 10 enqueueJob,
      k.status ∈ notificationQueueStatuses) ∧
    enqueueJob.status = "pending" ∧ enqueueJob.attempts = 0 ∧
    enqueueJob.maxAttempts = 3 :=
  c2_retry_cap enqueueJob rfl rfl rfl

/-- Claim C4 (amended): for a rule with frequency hourly that last fired at
time T (the rule-level last_triggered_at column), any triggering event
before T+1h — whatever clause it comes from — does not fire but its mention
id is accumulated, and a triggering event at or after T+1h fires an alert
whose mention_ids carries the accumulated ids; throttling is tracked per
rule via last_triggered_at, not per clause. -/
theorem c4_hourly_throttle (s : RuleState) (T t t' mid mid' : Nat)
    (c c' : String) (hf : s.frequency = "hourly")
    (hl : s.lastTriggeredAt = some T) (ht : t < T + 3600)
    (ht' : T + 3600 ≤ t') :
    evalEvent s t mid c true =
      ({ s with pendingMentionIds := s.pendingMentionIds ++ [mid] },
       none) ∧
    (evalEvent s t' mid' c' true).2 =
      some { mentionIds := s.pendingMentionIds ++ [mid'],
             triggeredAt := t' } := by
  have hw : windowSeconds s.frequency = 3600 := by rw [hf]; rfl
  have h1 : ruleThrottled s t = true := by
    simp only [ruleThrottled, hl, hw, decide_eq_true_eq]
    exact ht
  have h2 : ruleThrottled s t' = false := by
    simp only [ruleThrottled, hl, hw, decide_eq_false_iff_not, not_lt]
    exact ht'
  constructor
  · simp only [evalEvent, if_pos rfl, h1, if_true]
  · simp only [evalEvent, if_pos rfl, h2, if_false, Bool.false_eq_true,
      if_true]

/-- Claim C4 (witness): a rule that fired at time 100 with one pending
mention id suppresses but accumulates an event at time 200, and an event at
time 3700 fires with the accumulated ids. -/
theorem c4_hourly_throttle_witness :
    evalEvent
        { frequency := "hourly", lastTriggeredAt := some 100,
          pendingMentionIds := [5] } 200 6 "priority" true =
      ({ frequency := "hourly", lastTriggeredAt := some 100,
         pendingMentionIds := [5, 6] }, none) ∧
    (evalEvent
        { frequency := "hourly", lastTriggeredAt := some 100,
          pendingMentionIds := [5] } 3700 7 "keywords" true).2 =
      some { mentionIds := [5, 7], triggeredAt := 3700 } :=
  c4_hourly_throttle
    { frequency := "hourly", lastTriggeredAt := some 100,
      pendingMentionIds := [5] }
    100 200 3700 6 7 "priority" "keywords" rfl rfl (by decide) (by decide)

/-- Claim C10: from_dict keeps only keys that are columns, so every key of
the filtered dictionary is a column, the subsequent keyword-argument
construction always succeeds, and a key outside the columns never affects
the result — unknown keys are silently dropped. -/
theorem c10_from_dict (cols : List String) (data : List (String × Nat)) :
    (∀ k v, (k, v) ∈ fromDict cols data → k ∈ cols) ∧
    (modelConstruct cols (fromDict cols data)).isSome = true ∧
    (∀ k v, k ∉ cols →
      fromDict cols ((k, v) :: data) = fromDict cols data) := by
  refine ⟨?_, ?_, ?_⟩
  · intro k v hm
    rw [fromDict, List.mem_filter] at hm
    have := hm.2
    simpa [List.contains] using this
  · have hall : (fromDict cols data).all
        (fun kv => cols.contains kv.1) = true := by
      rw [List.all_eq_true]
      intro kv hkv
      rw [fromDict, List.mem_filter] at hkv
      exact hkv.2
    rw [modelConstruct, if_pos hall]
    rfl
  · intro k v hk
    have hc : cols.contains k = false := by
      by_contra hne
      exact hk (by simpa [List.contains] using eq_true_of_ne_false hne)
    rw [fromDict, fromDict, List.filter_cons]
    simp only [hc, Bool.false_eq_true, if_false]

/-- Claim C10 (witness): on columns ["id", "name"], the key "id" survives
filtering and is a column, construction from the filtered dictionary
succeeds, and prepending the unknown key "junk" leaves the result
unchanged. -/
theorem c10_from_dict_witness :
    "id" ∈ ["id", "name"] ∧
    (modelConstruct ["id", "name"]
      (fromDict ["id", "name"] [("id", 1)])).isSome = true ∧
    fromDict ["id", "name"] (("junk", 2) :: [("id", 1)]) =
      fromDict ["id", "name"] [("id", 1)] := by
  obtain ⟨h1, h2, h3⟩ := c10_from_dict ["id", "name"] [("id", 1)]
  exact ⟨h1 "id" 1 (by decide), h2, h3 "junk" 2 (by decide)⟩

/-- Claim C7 (amended): a mention is evaluated only against monitors whose
status is active and whose platforms set contains the mention's platform;
the Monitor model has no languages column, so matching is independent of
the mention's language — every monitor behaves as if its languages set
were empty ("any language"). -/
theorem c7_platform_filter (mons : List MonitorRec) (men : MatcherMention) :
    (∀ l, processMention mons { men with language := l } =
      processMention mons men) ∧
    (∀ mon, mon ∈ eligibleMonitors mons men →
      mon.status = "active" ∧ men.platform ∈ mon.platforms) := by
  refine ⟨fun l => rfl, ?_⟩
  intro mon hm
  rw [eligibleMonitors, List.mem_filter] at hm
  have h := hm.2
  simp only [monitorEligible, Bool.and_eq_true, beq_iff_eq] at h
  refine ⟨h.1, ?_⟩
  simpa [List.contains] using h.2

/-- Claim C7 (witness): a single active monitor on platform "twitter" is
eligible for a "twitter" mention, is active, and lists the platform. -/
theorem c7_platform_filter_witness :
    (MonitorRec.mk 1 [strCodes "launch"] [] ["twitter"] "active"
        false 0).status = "active" ∧
    "twitter" ∈
      (MonitorRec.mk 1 [strCodes "launch"] [] ["twitter"] "active"
        false 0).platforms :=
  (c7_platform_filter
    [MonitorRec.mk 1 [strCodes "launch"] [] ["twitter"] "active" false 0]
    (MatcherMention.mk 9 "twitter" none (strCodes "launch day") 50
      false)).2
    (MonitorRec.mk 1 [strCodes "launch"] [] ["twitter"] "active" false 0)
    (by decide)

theorem recordMatch_cases (rows : List MonitorMentionRow)
    (row : MonitorMentionRow) :
    recordMatch rows row = rows ∨ recordMatch rows row = rows ++ [row] := by
  rw [recordMatch]
  split
  · exact Or.inl rfl
  · exact Or.inr rfl

theorem recordMatch_pairUnique (rows : List MonitorMentionRow)
    (row : MonitorMentionRow) (h : PairUnique rows) :
    PairUnique (recordMatch rows row) := by
  rw [recordMatch]
  split
  · exact h
  next hp =>
    have hp' : ∀ r ∈ rows,
        ¬(r.monitorId = row.monitorId ∧ r.mentionId = row.mentionId) := by
      intro r hr hcontra
      apply hp
      rw [pairPresent, List.any_eq_true]
      exact ⟨r, hr, by simp [hcontra.1, hcontra.2]⟩
    rw [PairUnique, List.pairwise_append]
    refine ⟨h, by simp, ?_⟩
    intro a ha b hb
    rw [List.mem_singleton] at hb
    subst hb
    exact hp' a ha

theorem matchFold_pairUnique (evs rows : List MonitorMentionRow)
    (h : PairUnique rows) : PairUnique (matchFold rows evs) := by
  induction evs generalizing rows with
  | nil => exact h
  | cons e evs ih =>
    exact ih (recordMatch rows e) (recordMatch_pairUnique rows e h)

theorem matchFold_extends (evs rows : List MonitorMentionRow) :
    ∃ t, matchFold rows evs = rows ++ t := by
  induction evs generalizing rows with
  | nil => exact ⟨[], (List.append_nil rows).symm⟩
  | cons e evs ih =>
    obtain ⟨t2, ht2⟩ := ih (recordMatch rows e)
    rcases recordMatch_cases rows e with hr | hr
    · refine ⟨t2, ?_⟩
      show matchFold (recordMatch rows e) evs = rows ++ t2
      rw [ht2, hr]
    · refine ⟨[e] ++ t2, ?_⟩
      show matchFold (recordMatch rows e) evs = rows ++ ([e] ++ t2)
      rw [ht2, hr, List.append_assoc]

theorem recordMatch_idem (rows : List MonitorMentionRow)
    (row : MonitorMentionRow) :
    recordMatch (recordMatch rows row) row = recordMatch rows row := by
  by_cases hp : pairPresent rows row.monitorId row.mentionId = true
  · have h1 : recordMatch rows row = rows := by rw [recordMatch, if_pos hp]
    rw [h1, recordMatch, if_pos hp]
  · have h1 : recordMatch rows row = rows ++ [row] := by
      rw [recordMatch, if_neg hp]
    have hpres : pairPresent (rows ++ [row]) row.monitorId
        row.mentionId = true := by
      simp [pairPresent]
    rw [h1, recordMatch, if_pos hpres]

/-- Claim C6: across any sequence of match events over a
pairwise-pair-unique MonitorMention table, the table stays pair-unique (at
most one row per (monitor_id, mention_id) pair), existing rows are only
ever extended and never changed or removed, and replaying a match event
immediately writes nothing. -/
theorem c6_monitor_mention_unique (rows evs : List MonitorMentionRow)
    (h : PairUnique rows) :
    PairUnique (matchFold rows evs) ∧
    (∃ t, matchFold rows evs = rows ++ t) ∧
    (∀ row, recordMatch (recordMatch rows row) row =
      recordMatch rows row) :=
  ⟨matchFold_pairUnique evs rows h, matchFold_extends evs rows,
   fun row => recordMatch_idem rows row⟩

/-- Claim C6 (witness): one match event over the empty table. -/
theorem c6_monitor_mention_unique_witness :
    PairUnique (matchFold [] [MonitorMentionRow.mk 1 2 [] 10000 0]) ∧
    (∃ t, matchFold [] [MonitorMentionRow.mk 1 2 [] 10000 0] = [] ++ t) ∧
    (∀ row, recordMatch (recordMatch [] row) row = recordMatch [] row) :=
  c6_monitor_mention_unique [] [MonitorMentionRow.mk 1 2 [] 10000 0]
    List.Pairwise.nil

theorem samePair_mkRow (m : MentionIn) (norm : List Nat) (ch sh : Nat)
    (cat : Option String) :
    samePair (mkRow m norm ch sh cat) m.platformId m.platformPostId =
      true := by
  simp [samePair, mkRow]

theorem countPair_append_row (s : List MentionRow) (m : MentionIn)
    (norm : List Nat) (ch sh : Nat) (cat : Option String) :
    countPair (s ++ [mkRow m norm ch sh cat]) m.platformId
      m.platformPostId =
      countPair s m.platformId m.platformPostId + 1 := by
  rw [countPair, List.filter_append, List.length_append, countPair]
  simp [List.filter_cons, samePair_mkRow]

theorem countPair_eq_zero (s : List MentionRow) (pid : Nat) (ppid : String)
    (hp : ¬s.any (fun r => samePair r pid ppid) = true) :
    countPair s pid ppid = 0 := by
  rw [Bool.not_eq_true, List.any_eq_false] at hp
  rw [countPair, List.length_eq_zero, List.filter_eq_nil_iff]
  intro a ha
  simp [hp a ha]

theorem submit_same_pair_duplicate (T : Nat) (s : List MentionRow)
    (m : MentionIn) (hc : ¬m.contentText = [])
    (hp : s.any (fun r => samePair r m.platformId m.platformPostId) =
      true) :
    submitMention T s m = (SubmitResult.duplicate, s) := by
  simp [submitMention, hc, hp]

theorem pair_in_append (s : List MentionRow) (m : MentionIn)
    (norm : List Nat) (ch sh : Nat) (cat : Option String) :
    (s ++ [mkRow m norm ch sh cat]).any
      (fun r => samePair r m.platformId m.platformPostId) = true := by
  rw [List.any_append]
  simp [samePair_mkRow]

/-- Claim C1: ingestion is idempotent — when a submission is admitted
(possibly flagged as a near-duplicate), the store holds exactly one
mention with its (platform_id, platform_post_id) pair, and resubmitting
the same mention is rejected as a platform-level duplicate and leaves the
store unchanged. -/
theorem c1_idempotent_ingestion (T : Nat) (s : List MentionRow)
    (m : MentionIn)
    (h : (submitMention T s m).1 = SubmitResult.admitted ∨
      (submitMention T s m).1 = SubmitResult.nearDuplicate) :
    countPair (submitMention T s m).2 m.platformId m.platformPostId = 1 ∧
    submitMention T (submitMention T s m).2 m =
      (SubmitResult.duplicate, (submitMention T s m).2) := by
  by_cases hc : m.contentText = []
  · rcases h with h | h <;> simp [submitMention, hc] at h
  by_cases hp : s.any
      (fun r => samePair r m.platformId m.platformPostId) = true
  · rcases h with h | h <;> simp [submitMention, hc, hp] at h
  by_cases hch : s.any
      (fun r => r.contentHash ==
        contentHashFn (normalizeFn m.contentText)) = true
  · rcases h with h | h <;> simp [submitMention, hc, hp, hch] at h
  have hpz : countPair s m.platformId m.platformPostId = 0 :=
    countPair_eq_zero s m.platformId m.platformPostId hp
  by_cases hsim : s.any
      (fun r => decide (hammingDistance r.similarityHash
        (simHashFn (normalizeFn m.contentText)) ≤ T)) = true
  · have hout : submitMention T s m =
        (SubmitResult.nearDuplicate,
         s ++ [mkRow m (normalizeFn m.contentText)
           (contentHashFn (normalizeFn m.contentText))
           (simHashFn (normalizeFn m.contentText)) (some "duplicate")]) := by
      simp [submitMention, hc, hp, hch, hsim]
    rw [hout]
    constructor
    · rw [countPair_append_row, hpz]
    · exact submit_same_pair_duplicate T _ m hc
        (pair_in_append s m _ _ _ _)
  · have hout : submitMention T s m =
        (SubmitResult.admitted,
         s ++ [mkRow m (normalizeFn m.contentText)
           (contentHashFn (normalizeFn m.contentText))
           (simHashFn (normalizeFn m.contentText)) none]) := by
      simp [submitMention, hc, hp, hch, hsim]
    rw [hout]
    constructor
    · rw [countPair_append_row, hpz]
    · exact submit_same_pair_duplicate T _ m hc
        (pair_in_append s m _ _ _ _)

/-- Claim C1 (witness): submitting one mention to the empty store and
resubmitting it. -/
theorem c1_idempotent_ingestion_witness :
    countPair (submitMention 0 [] (MentionIn.mk 1 "p1"
        (strCodes "hello"))).2 (MentionIn.mk 1 "p1"
        (strCodes "hello")).platformId (MentionIn.mk 1 "p1"
        (strCodes "hello")).platformPostId = 1 ∧
    submitMention 0 (submitMention 0 [] (MentionIn.mk 1 "p1"
        (strCodes "hello"))).2 (MentionIn.mk 1 "p1" (strCodes "hello")) =
      (SubmitResult.duplicate, (submitMention 0 [] (MentionIn.mk 1 "p1"
        (strCodes "hello"))).2) :=
  c1_idempotent_ingestion 0 [] (MentionIn.mk 1 "p1" (strCodes "hello"))
    (Or.inl (by decide))

theorem submit_rows_hashok (T : Nat) (s : List MentionRow) (m : MentionIn)
    (h : ∀ r ∈ s, RowHashOK r) :
    ∀ r ∈ (submitMention T s m).2, RowHashOK r := by
  intro r hr
  by_cases hc : m.contentText = []
  · simp [submitMention, hc] at hr
    exact h r hr
  by_cases hp : s.any
      (fun r => samePair r m.platformId m.platformPostId) = true
  · simp [submitMention, hc, hp] at hr
    exact h r hr
  by_cases hch : s.any
      (fun r => r.contentHash ==
        contentHashFn (normalizeFn m.contentText)) = true
  · simp [submitMention, hc, hp, hch] at hr
    exact h r hr
  by_cases hsim : s.any
      (fun r => decide (hammingDistance r.similarityHash
        (simHashFn (normalizeFn m.contentText)) ≤ T)) = true
  · simp [submitMention, hc, hp, hch, hsim] at hr
    rcases hr with hr | hr
    · exact h r hr
    · subst hr
      exact ⟨rfl, rfl, rfl⟩
  · simp [submitMention, hc, hp, hch, hsim] at hr
    rcases hr with hr | hr
    · exact h r hr
    · subst hr
      exact ⟨rfl, rfl, rfl⟩

theorem runSubmissions_hashok (T : Nat) (ms : List MentionIn) :
    ∀ r ∈ runSubmissions T ms, RowHashOK r := by
  suffices hgen : ∀ (l : List MentionIn) (s : List MentionRow),
      (∀ r ∈ s, RowHashOK r) →
      ∀ r ∈ l.foldl (fun s m => (submitMention T s m).2) s,
        RowHashOK r by
    exact hgen ms [] (fun r hr => absurd hr (List.not_mem_nil r))
  intro l
  induction l with
  | nil => intro s hs; exact hs
  | cons m l ih =>
    intro s hs
    exact ih ((submitMention T s m).2) (submit_rows_hashok T s m hs)

/-- Claim C5 (amended): both fingerprint hashes are non-nullable columns of
the mentions table itself (not of mention_fingerprints), and in every store
reachable by ingestion every stored Mention row carries them, derived from
its normalized text — so no reader observes a Mention without both
hashes. -/
theorem c5_mention_hash_invariant (T : Nat) (ms : List MentionIn)
    (r : MentionRow) (h : r ∈ runSubmissions T ms) :
    (r.normalizedContent = normalizeFn r.contentText ∧
     r.contentHash = contentHashFn r.normalizedContent ∧
     r.similarityHash = simHashFn r.normalizedContent) ∧
    "content_hash" ∈ mentionColumns ∧
    "similarity_hash" ∈ mentionColumns :=
  ⟨runSubmissions_hashok T ms r h, by decide, by decide⟩

/-- Claim C5 (witness): the row stored for a single admitted submission. -/
theorem c5_mention_hash_invariant_witness :
    (normalizeFn (strCodes "hi") = normalizeFn (strCodes "hi") ∧
     contentHashFn (normalizeFn (strCodes "hi")) =
       contentHashFn (normalizeFn (strCodes "hi")) ∧
     simHashFn (normalizeFn (strCodes "hi")) =
       simHashFn (normalizeFn (strCodes "hi"))) ∧
    "content_hash" ∈ mentionColumns ∧
    "similarity_hash" ∈ mentionColumns :=
  c5_mention_hash_invariant 0 [MentionIn.mk 1 "p1" (strCodes "hi")]
    (mkRow (MentionIn.mk 1 "p1" (strCodes "hi"))
      (normalizeFn (strCodes "hi"))
      (contentHashFn (normalizeFn (strCodes "hi")))
      (simHashFn (normalizeFn (strCodes "hi"))) none)
    (by decide)

end SocialMonitoring
